import Mathlib

/-!
Verification of the osint-agents task orchestration engine
(`agents/mother_agent.py`, `agents/run_case.py`, `agents/spiderfoot_agent.py`).

Strings are modelled as Lean `String` / `List Char`.  Wall-clock time is
modelled as a monotone counter: an operation that happens at time `t` and
takes `d ≥ 0` units ends at `t + d`.  External process invocations are
modelled by oracles: a per-attempt outcome function `Nat → Outcome` telling,
for each attempt number, whether `subprocess.run` returned a
`CompletedProcess` or raised an exception (whose Python `str(e)` rendering is
the carried `String`).
-/

namespace OsintAgents

/-! ### Python whitespace, `str.strip`, and the regexes of `guess_kind`

`guess_kind` (identical in `mother_agent.py` lines 151-159 and
`run_case.py` lines 11-16) is

    def guess_kind(v: str) -> str:
        v = v.strip()
        if re.fullmatch(r".+@.+\..+", v): return "email"
        if re.fullmatch(r"\+?\d[\d\s().-]{6,}$", v): return "phone"
        if "." in v and " " not in v: return "domain"
        return "username"
-/

/-- Model of Python whitespace (the characters stripped by `str.strip` and
matched by the regex class `\s`), restricted to the ASCII range actually
relevant here. -/
def isPySpace (c : Char) : Bool :=
  c == ' ' || c == '\t' || c == '\n' || c == '\r' || c == '\x0b' || c == '\x0c'

/-- Left part of Python `str.strip`. -/
def stripLeft (l : List Char) : List Char := l.dropWhile isPySpace

/-- Right part of Python `str.strip`. -/
def stripRight (l : List Char) : List Char := (l.reverse.dropWhile isPySpace).reverse

/-- Python `v.strip()` on the character list of `v`. -/
def pyStrip (l : List Char) : List Char := stripRight (stripLeft l)

/-- Python `v.strip()` at the `String` level. -/
def pyStripString (s : String) : String := ⟨pyStrip s.data⟩

/-- Semantics of `re.fullmatch(r".+@.+\..+", v)`: the regex `.` matches any
character except `'\n'`, so a full match is a decomposition
`v = a ++ "@" ++ b ++ "." ++ c` with `a`, `b`, `c` nonempty and the whole
string free of newlines.  Equivalently: no newline anywhere, and there are
positions `i`, `j` with `1 ≤ i`, `i + 2 ≤ j`, `j + 2 ≤ len`, `v[i] = '@'`,
`v[j] = '.'`.  This definition decides that condition by scanning indices. -/
def emailMatch (l : List Char) : Bool :=
  l.all (fun c => c != '\n') &&
  (List.range l.length).any (fun j =>
    (List.range j).any (fun i =>
      decide (1 ≤ i) && decide (i + 2 ≤ j) && decide (j + 2 ≤ l.length) &&
      (l.get? i == some '@') && (l.get? j == some '.')))

/-- The character class `[\d\s().-]` of the phone regex. -/
def phoneClass (c : Char) : Bool :=
  c.isDigit || isPySpace c || c == '(' || c == ')' || c == '.' || c == '-'

/-- The `\d[\d\s().-]{6,}` part of the phone regex, required to consume the
whole remaining input (fullmatch). -/
def phoneCore (l : List Char) : Bool :=
  match l with
  | [] => false
  | d :: rest => d.isDigit && decide (6 ≤ rest.length) && rest.all phoneClass

/-- Semantics of `re.fullmatch(r"\+?\d[\d\s().-]{6,}$", v)`: an optional
leading `'+'`, then a digit, then at least six characters of the class.
(The trailing `$` is subsumed by fullmatch; `'+'` is not a digit, so when the
input starts with `'+'` the optional branch must consume it.) -/
def phoneMatch (l : List Char) : Bool :=
  match l with
  | '+' :: rest => phoneCore rest
  | _ => phoneCore l

/-- `guess_kind` from `mother_agent.py` lines 151-159 (textually identical in
`run_case.py` lines 11-16).  Python `"." in v` / `" " not in v` are
containment tests for the single characters `'.'` and `' '` (a literal space,
not arbitrary whitespace). -/
def guess_kind (s : String) : String :=
  let v := pyStrip s.data
  if emailMatch v then "email"
  else if phoneMatch v then "phone"
  else if v.contains '.' && !(v.contains ' ') then "domain"
  else "username"

/-! ### Subprocess results, the Tool Invoker, and the Retry Policy -/

/-- Model of Python `subprocess.CompletedProcess` as used here: exit code and
captured text streams. -/
structure CompletedProcess where
  returncode : Int
  stdout : String
  stderr : String
  deriving DecidableEq, Repr

/-- Outcome of one `subprocess.run` call inside `execute_agent`: either a
`CompletedProcess` is returned, or an exception is raised (modelled by its
Python `str(e)` rendering; `subprocess.TimeoutExpired` and any other
exception are handled identically by `execute_agent`, both merely set
`last_exc`). -/
inductive Outcome where
  | ret (cp : CompletedProcess)
  | raise (e : String)
  deriving DecidableEq, Repr

/-- Observable trace of one `execute_agent` call: how many attempts ran, the
`time.sleep` delays in order, and the final outcome (`.ok cp` when an attempt
returned, `.error msg` when the function raised after the loop). -/
structure ExecTrace where
  attempts : Nat
  delays : List Nat
  result : Except String CompletedProcess
  deriving Repr

/-- The retry loop of `execute_agent` (`mother_agent.py` lines 95-116),
unrolled over the remaining number of attempts.  `attempt` is the 1-based
attempt counter of the Python `for attempt in range(1, cfg.max_retries + 1)`
loop, `remaining = cfg.max_retries - attempt + 1`, and `last` is `last_exc`.
When the loop body runs and the invocation raises, the code sleeps
`2 ** (attempt - 1)` seconds only when `attempt < cfg.max_retries`,
i.e. when at least one more attempt remains. -/
def executeGo (invoke : Nat → Outcome) (attempt remaining : Nat)
    (last : Option String) : ExecTrace :=
  match remaining with
  | 0 => ⟨0, [], .error (last.getD "Unknown execution failure")⟩
  | r + 1 =>
    match invoke attempt with
    | .ret cp => ⟨1, [], .ok cp⟩
    | .raise e =>
      let rest := executeGo invoke (attempt + 1) r (some e)
      { attempts := rest.attempts + 1
        delays := if r = 0 then [] else 2 ^ (attempt - 1) :: rest.delays
        result := rest.result }

/-- `execute_agent(agent_path, args, cfg)` (`mother_agent.py` lines 95-116):
runs the invocation oracle with at most `max_retries` attempts, returning the
first `CompletedProcess` produced, sleeping `2^(attempt-1)` between failed
attempts, and raising `last_exc` (or `RuntimeError("Unknown execution
failure")` when no attempt ever ran) after the loop. -/
def execute_agent (invoke : Nat → Outcome) (max_retries : Nat) : ExecTrace :=
  executeGo invoke 1 max_retries none

/-- What an external process did, as seen by `run_cmd`: it either completed
with an exit code and output, or ran past the timeout. -/
inductive ProcOutcome where
  | completed (code : Int) (out err : String)
  | timedOut
  deriving DecidableEq, Repr

/-- The tool invoker helper from `spiderfoot_agent.py` lines 21-27 (named
there with a `run` prefix and a `cmd` suffix; that exact name is a Mathlib
command, so it is camel-cased here): returns
`(cp.returncode, cp.stdout or "", cp.stderr or "")` on completion and the
sentinel triple `(124, "", "TimeoutExpired")` on `subprocess.TimeoutExpired`;
it is total — a timeout never propagates as an exception. -/
def runCmd (p : ProcOutcome) : Int × String × String :=
  match p with
  | .completed code out err => (code, out, err)
  | .timedOut => (124, "", "TimeoutExpired")

/-- Repackage a `run_cmd` triple as the `CompletedProcess` the parent process
observes when the child exits with that code. -/
def cpOfTriple (t : Int × String × String) : CompletedProcess :=
  ⟨t.1, t.2.1, t.2.2⟩

/-! ### Task results and the Dispatcher -/

/-- `TaskStatus` (`mother_agent.py` lines 46-50). -/
inductive TaskStatus where
  | pending
  | running
  | completed
  | failed
  deriving DecidableEq, Repr

/-- `TaskResult` (`mother_agent.py` lines 52-60); timestamps are modelled as
`Nat` clock readings. -/
structure TaskResult where
  target : String
  agent : String
  status : TaskStatus
  start_time : Option Nat := none
  end_time : Option Nat := none
  returncode : Option Int := none
  error : Option String := none
  deriving DecidableEq, Repr

/-- `Config` (`mother_agent.py` lines 62-69), restricted to the fields the
orchestration logic reads (`case_dir`, `report_dir` and the agent path table
only locate files on disk). -/
structure Config where
  max_retries : Nat := 3
  parallel : Bool := false
  worker_count : Nat := 4
  deriving DecidableEq, Repr

/-- `run_username` (`mother_agent.py` lines 118-132).  `t0` is the
`datetime.now()` reading taken when the `TaskResult` is created and `d` the
time `execute_agent` takes, so `end_time = t0 + d`.  On a returned
`CompletedProcess` the status is `completed` iff the exit code is zero, with
`error = "exit <code>"` otherwise; on a raise the status is `failed`,
`error = str(e)`, and `returncode` stays `None`. -/
def run_username (value : String) (invoke : Nat → Outcome) (cfg : Config)
    (t0 d : Nat) : TaskResult :=
  match (execute_agent invoke cfg.max_retries).result with
  | .ok cp =>
    { target := value, agent := "username"
      status := if cp.returncode = 0 then .completed else .failed
      start_time := some t0, end_time := some (t0 + d)
      returncode := some cp.returncode
      error := if cp.returncode = 0 then none
               else some ("exit " ++ toString cp.returncode) }
  | .error e =>
    { target := value, agent := "username", status := .failed
      start_time := some t0, end_time := some (t0 + d)
      returncode := none, error := some e }

/-- `run_spiderfoot` (`mother_agent.py` lines 134-148); identical to
`run_username` except for the `agent` field and the kind-qualified target. -/
def run_spiderfoot (kind value : String) (invoke : Nat → Outcome)
    (cfg : Config) (t0 d : Nat) : TaskResult :=
  match (execute_agent invoke cfg.max_retries).result with
  | .ok cp =>
    { target := kind ++ ":" ++ value, agent := "spiderfoot"
      status := if cp.returncode = 0 then .completed else .failed
      start_time := some t0, end_time := some (t0 + d)
      returncode := some cp.returncode
      error := if cp.returncode = 0 then none
               else some ("exit " ++ toString cp.returncode) }
  | .error e =>
    { target := kind ++ ":" ++ value, agent := "spiderfoot", status := .failed
      start_time := some t0, end_time := some (t0 + d)
      returncode := none, error := some e }

/-- `dispatch_task` (`mother_agent.py` lines 244-252): route by kind.  For an
unrecognised kind the code takes two `datetime.now()` readings (`t0` and
`t0 + d`) and builds a failed result directly, invoking no tool. -/
def dispatch_task (kind value : String) (invoke : Nat → Outcome)
    (cfg : Config) (t0 d : Nat) : TaskResult :=
  if kind = "username" then
    run_username value invoke cfg t0 d
  else if kind ∈ (["domain", "email", "ip", "phone"] : List String) then
    run_spiderfoot kind value invoke cfg t0 d
  else
    { target := value, agent := "unknown", status := .failed
      start_time := some t0, end_time := some (t0 + d)
      returncode := none, error := some ("unknown type " ++ kind) }

/-- Per-task execution environment: the invocation oracle for this task's
`execute_agent` call, the clock reading at task start, and the duration of
the `execute_agent` call. -/
structure TaskEnv where
  invoke : Nat → Outcome
  t0 : Nat
  dur : Nat

/-- The task at index `i` of the task list, dispatched with its own
environment (out-of-range indices never arise under the permutation
hypotheses used below). -/
def dispatch_taskAt (cfg : Config) (tasks : List (String × String))
    (envOf : Nat → TaskEnv) (i : Nat) : TaskResult :=
  dispatch_task (tasks.getD i ("", "")).1 (tasks.getD i ("", "")).2
    (envOf i).invoke cfg (envOf i).t0 (envOf i).dur

/-- The `except` branch of the `as_completed` loop (`mother_agent.py`
lines 262-265): a future whose `result()` raised is converted into a failed
`TaskResult` with target `"{k}:{v}"`, agent `"unknown"`, and the fault's
string as `error`; `t` and `d` are the two `datetime.now()` readings. -/
def convFailed (tasks : List (String × String)) (i : Nat) (e : String)
    (t d : Nat) : TaskResult :=
  { target := (tasks.getD i ("", "")).1 ++ ":" ++ (tasks.getD i ("", "")).2
    agent := "unknown", status := .failed
    start_time := some t, end_time := some (t + d)
    returncode := none, error := some e }

/-- The task-running section of `main` (`mother_agent.py` lines 254-269).
Sequential mode appends `dispatch_task(k, v)` for each task in input order.
Parallel mode submits one future per task and collects them in completion
order: `order` is the sequence of task indices in which `as_completed`
yields the futures (a permutation of the indices), and `wf i` is `some e`
when future `i`'s `result()` call raised an exception rendered as `e`
(`ft i` / `fd i` are the clock readings of the conversion).  When
`cfg.parallel` is set but the task list is empty, the code falls through to
the sequential loop over no tasks; both branches return `[]` then. -/
def run_tasks (cfg : Config) (tasks : List (String × String))
    (envOf : Nat → TaskEnv) (order : List Nat) (wf : Nat → Option String)
    (ft fd : Nat → Nat) : List TaskResult :=
  if cfg.parallel then
    order.map (fun i =>
      match wf i with
      | none => dispatch_taskAt cfg tasks envOf i
      | some e => convFailed tasks i e (ft i) (fd i))
  else
    (List.range tasks.length).map (fun i => dispatch_taskAt cfg tasks envOf i)

/-- `sum(1 for r in results if r.status == TaskStatus.COMPLETED)`
(`mother_agent.py` line 283). -/
def successCount (results : List TaskResult) : Nat :=
  (results.filter (fun r => r.status == TaskStatus.completed)).length

/-- The tail of `main` (`mother_agent.py` lines 271-285): the summary agent
is invoked once; whether that invocation returns (either branch of its exit
code) or raises, the `except` handler only logs, and the final tallies
`(success_count, len(results))` are computed from the dispatch results
alone. -/
def main_finalize (results : List TaskResult)
    (summary : ExecTrace) : Nat × Nat :=
  match summary.result with
  | .ok _ => (successCount results, results.length)
  | .error _ => (successCount results, results.length)

/-! ### Spec-side classifier definitions (for comparison with `guess_kind`) -/

/-- Written from the claim's wording, for comparison with the code: the email
rule as the claim states it, `<non-space>@<non-space>.<non-space>` as a full
match, i.e. every character is non-whitespace and the string decomposes
around an `'@'` and a later `'.'` with nonempty pieces.  Decided by the same
index scan as `emailMatch`, with the non-space requirement added. -/
def specEmail (l : List Char) : Bool :=
  l.all (fun c => !(isPySpace c)) &&
  (List.range l.length).any (fun j =>
    (List.range j).any (fun i =>
      decide (1 ≤ i) && decide (i + 2 ≤ j) && decide (j + 2 ≤ l.length) &&
      (l.get? i == some '@') && (l.get? j == some '.')))

/-- Written from the claim's wording (C6): rules in order, first match wins —
email-like per the claim's non-space pattern, then phone-like, then
`contains a dot and no whitespace` (genuine whitespace, not just a space
character), else username. -/
def classifySpecC6 (s : String) : String :=
  let v := s.data
  if specEmail v then "email"
  else if phoneMatch v then "phone"
  else if v.contains '.' && v.all (fun c => !(isPySpace c)) then "domain"
  else "username"

/-- No newline character occurs in the list (what the regex `.` permits). -/
def NoNewline (l : List Char) : Prop := ∀ c ∈ l, c ≠ '\n'

/-- Declarative reading of the code's email rule: the input splits as
`a ++ "@" ++ b ++ "." ++ c` with all three pieces nonempty, and no newline
anywhere. -/
def EmailShape (l : List Char) : Prop :=
  ∃ a b c : List Char,
    l = a ++ '@' :: (b ++ '.' :: c) ∧ a ≠ [] ∧ b ≠ [] ∧ c ≠ [] ∧ NoNewline l

/-- Declarative reading of the phone rule: an optional leading `'+'`, then a
digit, then at least six characters from the class
digit / whitespace / `(` / `)` / `.` / `-`. -/
def PhoneShape (l : List Char) : Prop :=
  ∃ d rest, (l = d :: rest ∨ l = '+' :: d :: rest) ∧ d.isDigit = true ∧
    6 ≤ rest.length ∧ ∀ c ∈ rest, phoneClass c = true

/-- The amended classification contract: first match wins among — email per
`EmailShape`, phone per `PhoneShape`, dot-and-no-space-character for domain,
username otherwise. -/
def classifyRules (v : List Char) (result : String) : Prop :=
  (EmailShape v ∧ result = "email") ∨
  (¬EmailShape v ∧ PhoneShape v ∧ result = "phone") ∨
  (¬EmailShape v ∧ ¬PhoneShape v ∧ '.' ∈ v ∧ ' ' ∉ v ∧ result = "domain") ∨
  (¬EmailShape v ∧ ¬PhoneShape v ∧ ¬('.' ∈ v ∧ ' ' ∉ v) ∧
    result = "username")

/-! ### Helper lemmas about `str.strip` -/

lemma length_dropWhile_le (p : Char → Bool) (l : List Char) :
    (l.dropWhile p).length ≤ l.length := by
  induction l with
  | nil => simp
  | cons x t ih =>
    rw [List.dropWhile_cons]
    split
    · exact le_trans ih (Nat.le_succ _)
    · simp

lemma dropWhile_fix_head (p : Char → Bool) (x : Char) (t : List Char)
    (h : (x :: t).dropWhile p = x :: t) : p x = false := by
  by_contra hpx
  have hpx : p x = true := by revert hpx; cases p x <;> simp
  rw [List.dropWhile_cons, if_pos hpx] at h
  have := length_dropWhile_le p t
  rw [h] at this
  simp at this

lemma dropWhile_dropWhile (p : Char → Bool) (l : List Char) :
    (l.dropWhile p).dropWhile p = l.dropWhile p := by
  induction l with
  | nil => simp
  | cons x t ih =>
    rw [List.dropWhile_cons]
    split
    · exact ih
    · next hx => rw [List.dropWhile_cons, if_neg hx]

lemma dropWhile_append_singleton (p : Char → Bool) (x : Char)
    (hx : p x = false) (u : List Char) :
    (u ++ [x]).dropWhile p = u.dropWhile p ++ [x] := by
  induction u with
  | nil => simp [List.dropWhile_cons, hx]
  | cons y v ih =>
    rw [List.cons_append, List.dropWhile_cons, List.dropWhile_cons]
    split
    · exact ih
    · simp

lemma stripLeft_stripLeft (l : List Char) :
    stripLeft (stripLeft l) = stripLeft l :=
  dropWhile_dropWhile _ l

lemma stripRight_cons (x : Char) (t : List Char) (hx : isPySpace x = false) :
    stripRight (x :: t) = x :: stripRight t := by
  unfold stripRight
  rw [List.reverse_cons, dropWhile_append_singleton isPySpace x hx,
    List.reverse_append]
  rfl

lemma stripRight_stripRight (l : List Char) :
    stripRight (stripRight l) = stripRight l := by
  unfold stripRight
  rw [List.reverse_reverse, dropWhile_dropWhile]

lemma stripLeft_stripRight_of_fix (l : List Char) (h : stripLeft l = l) :
    stripLeft (stripRight l) = stripRight l := by
  cases l with
  | nil => rfl
  | cons x t =>
    have hx : isPySpace x = false := dropWhile_fix_head isPySpace x t h
    rw [stripRight_cons x t hx]
    exact List.dropWhile_cons_of_neg (by simp [hx])

lemma pyStrip_idem (l : List Char) : pyStrip (pyStrip l) = pyStrip l := by
  unfold pyStrip
  rw [stripLeft_stripRight_of_fix (stripLeft l) (stripLeft_stripLeft l),
    stripRight_stripRight]

/-- C10: `guess_kind` is insensitive to leading/trailing whitespace removal,
because the input is stripped before any classification rule applies —
classifying an already-stripped input gives the same answer. -/
theorem guess_kind_strip_invariant (s : String) :
    guess_kind s = guess_kind (pyStripString s) := by
  show guess_kind s =
    (if emailMatch (pyStrip (pyStrip s.data)) then "email"
     else if phoneMatch (pyStrip (pyStrip s.data)) then "phone"
     else if (pyStrip (pyStrip s.data)).contains '.' &&
            !((pyStrip (pyStrip s.data)).contains ' ') then "domain"
     else "username")
  rw [pyStrip_idem]
  rfl

/-! ### Retry Policy lemmas -/

lemma executeGo_all_raise (e : Nat → String) :
    ∀ (r a : Nat) (last : Option String), 1 ≤ a →
      executeGo (fun k => .raise (e k)) a r last =
        ⟨r, (List.range (r - 1)).map (fun i => 2 ^ (a - 1 + i)),
          .error (if r = 0 then last.getD "Unknown execution failure"
                  else e (a + r - 1))⟩ := by
  intro r
  induction r with
  | zero => intro a last _; simp [executeGo]
  | succ s ih =>
    intro a last ha
    show (let rest := executeGo (fun k => .raise (e k)) (a + 1) s (some (e a))
          ({ attempts := rest.attempts + 1
             delays := if s = 0 then [] else 2 ^ (a - 1) :: rest.delays
             result := rest.result } : ExecTrace)) = _
    rw [ih (a + 1) (some (e a)) (by omega)]
    rcases Nat.eq_zero_or_pos s with hs | hs
    · subst hs; simp
    · have hs1 : s ≠ 0 := by omega
      have hrange : List.range s = 0 :: (List.range (s - 1)).map Nat.succ := by
        have := List.range_succ_eq_map (s - 1)
        rw [show s - 1 + 1 = s by omega] at this
        exact this
      have hif : (if s = 0 then some (e a) |>.getD "Unknown execution failure"
                  else e (a + 1 + s - 1)) = e (a + (s + 1) - 1) := by
        rw [if_neg hs1]
        congr 1
        omega
      simp only [hif, if_neg hs1, Nat.succ_sub_one]
      congr 1
      rw [hrange, List.map_cons, List.map_map]
      refine List.cons_eq_cons.mpr ⟨by simp, ?_⟩
      apply List.map_congr_left
      intro i _
      show 2 ^ (a + 1 - 1 + i) = 2 ^ (a - 1 + Nat.succ i)
      congr 1
      omega

lemma execute_agent_first (invoke : Nat → Outcome) (cp : CompletedProcess)
    (h1 : invoke 1 = .ret cp) (m : Nat) (hm : 1 ≤ m) :
    execute_agent invoke m = ⟨1, [], .ok cp⟩ := by
  cases m with
  | zero => omega
  | succ s =>
    show executeGo invoke 1 (s + 1) none = _
    unfold executeGo
    rw [h1]

/-- C2: when every attempt raises, `execute_agent` makes exactly
`max_retries` attempts with backoff delays `2^0, 2^1, …` between attempts
and none after the last, then surfaces the fault of the final attempt; when
the first attempt returns, exactly one attempt is made with no delay; and
with zero configured attempts the generic exhaustion fault
`"Unknown execution failure"` is raised. -/
theorem retry_policy_spec (e : Nat → String) (m : Nat) (hm : 1 ≤ m)
    (invoke : Nat → Outcome) (cp : CompletedProcess)
    (h1 : invoke 1 = .ret cp) :
    (execute_agent (fun k => .raise (e k)) m).attempts = m ∧
    (execute_agent (fun k => .raise (e k)) m).delays
      = (List.range (m - 1)).map (fun i => 2 ^ i) ∧
    (execute_agent (fun k => .raise (e k)) m).result = .error (e m) ∧
    execute_agent invoke m = ⟨1, [], .ok cp⟩ ∧
    execute_agent (fun k => .raise (e k)) 0
      = ⟨0, [], .error "Unknown execution failure"⟩ := by
  have h := executeGo_all_raise e m 1 none (le_refl 1)
  rw [execute_agent, h]
  refine ⟨rfl, ?_, ?_, execute_agent_first invoke cp h1 m hm, rfl⟩
  · simp
  · have h1m : 1 + m - 1 = m := by omega
    rw [if_neg (show ¬m = 0 by omega), h1m]

/-- Witness for C2 at `max_retries = 3`: three attempts, delays `[1, 2]`,
final fault `"e3"`; a first-attempt success makes one attempt with no
delay. -/
theorem retry_policy_spec_witness :
    (1 ≤ 3) ∧
    ((fun _ => Outcome.ret (⟨0, "", ""⟩ : CompletedProcess)) 1
      = Outcome.ret (⟨0, "", ""⟩ : CompletedProcess)) ∧
    ((execute_agent (fun k => .raise ("e" ++ toString k)) 3).attempts = 3 ∧
     (execute_agent (fun k => .raise ("e" ++ toString k)) 3).delays
       = (List.range (3 - 1)).map (fun i => 2 ^ i) ∧
     (execute_agent (fun k => .raise ("e" ++ toString k)) 3).result
       = .error ("e" ++ toString 3) ∧
     execute_agent (fun _ => Outcome.ret (⟨0, "", ""⟩ : CompletedProcess)) 3
       = ⟨1, [], .ok ⟨0, "", ""⟩⟩ ∧
     execute_agent (fun k => .raise ("e" ++ toString k)) 0
       = ⟨0, [], .error "Unknown execution failure"⟩) :=
  ⟨by decide, rfl,
    retry_policy_spec (fun k => "e" ++ toString k) 3 (by decide)
      (fun _ => Outcome.ret ⟨0, "", ""⟩) ⟨0, "", ""⟩ rfl⟩

/-! ### Tool Invoker timeout, routing, and task status -/

/-- C3: on timeout the Tool Invoker returns the sentinel triple
`(124, "", "TimeoutExpired")` (its return type already shows it cannot
raise); an invocation that returns a `CompletedProcess` — from any
`runCmd` outcome, timeout included — is accepted by the Retry Policy on the
first attempt and never retried; and the timeout sentinel then flows through
the ordinary exit-code evaluation, yielding a failed task with
`error = "exit 124"`. -/
theorem timeout_sentinel (kind value : String) (cfg : Config)
    (hm : 1 ≤ cfg.max_retries) (t0 d : Nat) :
    runCmd .timedOut = (124, "", "TimeoutExpired") ∧
    (∀ p : ProcOutcome,
      execute_agent (fun _ => .ret (cpOfTriple (runCmd p))) cfg.max_retries
        = ⟨1, [], .ok (cpOfTriple (runCmd p))⟩) ∧
    (run_spiderfoot kind value (fun _ => .ret (cpOfTriple (runCmd .timedOut)))
      cfg t0 d).status = .failed ∧
    (run_spiderfoot kind value (fun _ => .ret (cpOfTriple (runCmd .timedOut)))
      cfg t0 d).error = some "exit 124" ∧
    (run_spiderfoot kind value (fun _ => .ret (cpOfTriple (runCmd .timedOut)))
      cfg t0 d).returncode = some (124 : Int) := by
  have hfirst : ∀ p : ProcOutcome,
      execute_agent (fun _ => .ret (cpOfTriple (runCmd p))) cfg.max_retries
        = ⟨1, [], .ok (cpOfTriple (runCmd p))⟩ := fun p =>
    execute_agent_first _ (cpOfTriple (runCmd p)) rfl cfg.max_retries hm
  have hrun : run_spiderfoot kind value
      (fun _ => .ret (cpOfTriple (runCmd .timedOut))) cfg t0 d =
      { target := kind ++ ":" ++ value, agent := "spiderfoot"
        status := .failed, start_time := some t0, end_time := some (t0 + d)
        returncode := some 124, error := some "exit 124" } := by
    unfold run_spiderfoot
    rw [hfirst ProcOutcome.timedOut]
    rfl
  exact ⟨rfl, hfirst, by rw [hrun], by rw [hrun], by rw [hrun]⟩

/-- Witness for C3 with `max_retries = 3`. -/
theorem timeout_sentinel_witness :
    (1 ≤ (⟨3, false, 4⟩ : Config).max_retries) ∧
    (runCmd .timedOut = (124, "", "TimeoutExpired") ∧
     (∀ p : ProcOutcome,
       execute_agent (fun _ => .ret (cpOfTriple (runCmd p)))
         (⟨3, false, 4⟩ : Config).max_retries
         = ⟨1, [], .ok (cpOfTriple (runCmd p))⟩) ∧
     (run_spiderfoot "domain" "ex.com"
       (fun _ => .ret (cpOfTriple (runCmd .timedOut)))
       (⟨3, false, 4⟩ : Config) 10 2).status = .failed ∧
     (run_spiderfoot "domain" "ex.com"
       (fun _ => .ret (cpOfTriple (runCmd .timedOut)))
       (⟨3, false, 4⟩ : Config) 10 2).error = some "exit 124" ∧
     (run_spiderfoot "domain" "ex.com"
       (fun _ => .ret (cpOfTriple (runCmd .timedOut)))
       (⟨3, false, 4⟩ : Config) 10 2).returncode = some (124 : Int)) :=
  ⟨by decide, timeout_sentinel "domain" "ex.com" ⟨3, false, 4⟩ (by decide) 10 2⟩

/-- C4: `dispatch_task` routes `"username"` to the username tool, each of
`domain`/`email`/`ip`/`phone` to the recon tool, and any other kind to an
immediately failed `TaskResult` with `error = "unknown type <kind>"`; the
unknown-kind branch is independent of the invocation oracle and of the retry
configuration (no tool invoked, no retry attempted), e.g.
`"carrier-pigeon"` yields `error = "unknown type carrier-pigeon"`. -/
theorem dispatch_routing (k v : String) (invoke invoke2 : Nat → Outcome)
    (cfg cfg2 : Config) (t d : Nat) :
    dispatch_task k v invoke cfg t d =
      (if k = "username" then run_username v invoke cfg t d
       else if k = "domain" ∨ k = "email" ∨ k = "ip" ∨ k = "phone" then
         run_spiderfoot k v invoke cfg t d
       else
         { target := v, agent := "unknown", status := .failed
           start_time := some t, end_time := some (t + d)
           returncode := none, error := some ("unknown type " ++ k) }) ∧
    dispatch_task "carrier-pigeon" v invoke cfg t d =
      { target := v, agent := "unknown", status := .failed
        start_time := some t, end_time := some (t + d)
        returncode := none,
        error := some ("unknown type carrier-pigeon") } ∧
    dispatch_task "carrier-pigeon" v invoke cfg t d
      = dispatch_task "carrier-pigeon" v invoke2 cfg2 t d := by
  refine ⟨?_, rfl, rfl⟩
  unfold dispatch_task
  by_cases h1 : k = "username"
  · rw [if_pos h1, if_pos h1]
  · rw [if_neg h1, if_neg h1]
    by_cases h2 : k = "domain" ∨ k = "email" ∨ k = "ip" ∨ k = "phone"
    · have hmem : k ∈ (["domain", "email", "ip", "phone"] : List String) := by
        simp only [List.mem_cons, List.not_mem_nil, or_false]
        exact h2
      rw [if_pos hmem, if_pos h2]
    · have hmem : k ∉ (["domain", "email", "ip", "phone"] : List String) := by
        simp only [List.mem_cons, List.not_mem_nil, or_false]
        exact h2
      rw [if_neg hmem, if_neg h2]

/-- C5: for a task that runs a tool (`run_username` / `run_spiderfoot`), the
status is `completed` iff the Retry Policy returned a process with exit code
zero; otherwise the status is `failed` with `error = "exit <code>"` on a
non-zero exit and the fault's string when the policy raised; `start_time` is
the clock reading just before the policy call and `end_time` the reading
just after it finishes. -/
theorem task_status_exit (k v : String) (invoke : Nat → Outcome)
    (cfg : Config) (t d : Nat) :
    ((run_username v invoke cfg t d).status =
      match (execute_agent invoke cfg.max_retries).result with
      | .ok cp => if cp.returncode = 0 then TaskStatus.completed
                  else TaskStatus.failed
      | .error _ => TaskStatus.failed) ∧
    ((run_username v invoke cfg t d).status = .completed ↔
      ∃ cp, (execute_agent invoke cfg.max_retries).result = .ok cp ∧
        cp.returncode = 0) ∧
    (run_username v invoke cfg t d).start_time = some t ∧
    (run_username v invoke cfg t d).end_time = some (t + d) ∧
    ((run_username v invoke cfg t d).error =
      match (execute_agent invoke cfg.max_retries).result with
      | .ok cp => if cp.returncode = 0 then none
                  else some ("exit " ++ toString cp.returncode)
      | .error e => some e) ∧
    ((run_spiderfoot k v invoke cfg t d).status =
      match (execute_agent invoke cfg.max_retries).result with
      | .ok cp => if cp.returncode = 0 then TaskStatus.completed
                  else TaskStatus.failed
      | .error _ => TaskStatus.failed) ∧
    ((run_spiderfoot k v invoke cfg t d).status = .completed ↔
      ∃ cp, (execute_agent invoke cfg.max_retries).result = .ok cp ∧
        cp.returncode = 0) ∧
    (run_spiderfoot k v invoke cfg t d).start_time = some t ∧
    (run_spiderfoot k v invoke cfg t d).end_time = some (t + d) ∧
    ((run_spiderfoot k v invoke cfg t d).error =
      match (execute_agent invoke cfg.max_retries).result with
      | .ok cp => if cp.returncode = 0 then none
                  else some ("exit " ++ toString cp.returncode)
      | .error e => some e) := by
  rcases hres : (execute_agent invoke cfg.max_retries).result with e | cp
  · simp [run_username, run_spiderfoot, hres]
  · by_cases hc : cp.returncode = 0 <;>
      simp [run_username, run_spiderfoot, hres, hc]

/-- C9: a failure of the Aggregate step (the summary-agent invocation) is
absorbed — whatever the summary invocation's trace, the final tallies are
the completed/total counts computed from the dispatch results alone. -/
theorem aggregate_isolated (results : List TaskResult)
    (s1 s2 : ExecTrace) :
    main_finalize results s1 = (successCount results, results.length) ∧
    main_finalize results s1 = main_finalize results s2 := by
  unfold main_finalize
  rcases s1.result with e1 | c1 <;> rcases s2.result with e2 | c2 <;>
    exact ⟨rfl, rfl⟩

/-! ### Dispatcher invariants -/

/-- C1: one `TaskResult` per input target, in both sequential and concurrent
modes, for every invocation oracle (success, raise, timeout exit code),
every worker-fault assignment, and every completion order (any permutation
of the task indices). -/
theorem dispatch_length (cfg : Config) (tasks : List (String × String))
    (envOf : Nat → TaskEnv) (order : List Nat) (wf : Nat → Option String)
    (ft fd : Nat → Nat)
    (hord : order.Perm (List.range tasks.length)) :
    (run_tasks cfg tasks envOf order wf ft fd).length = tasks.length := by
  unfold run_tasks
  split
  · rw [List.length_map, hord.length_eq, List.length_range]
  · rw [List.length_map, List.length_range]

/-- Witness for C1: two targets (one of unsupported kind, one whose tool
always raises), parallel mode, completion order reversed — still exactly two
results. -/
theorem dispatch_length_witness :
    ([1, 0].Perm (List.range
      ([("username", "a"), ("carrier-pigeon", "b")]
        : List (String × String)).length)) ∧
    (run_tasks ⟨3, true, 4⟩ [("username", "a"), ("carrier-pigeon", "b")]
      (fun _ => ⟨fun _ => .raise "boom", 0, 1⟩) [1, 0] (fun _ => none)
      (fun _ => 0) (fun _ => 0)).length
      = ([("username", "a"), ("carrier-pigeon", "b")]
          : List (String × String)).length :=
  ⟨by decide,
    dispatch_length ⟨3, true, 4⟩ [("username", "a"), ("carrier-pigeon", "b")]
      (fun _ => ⟨fun _ => .raise "boom", 0, 1⟩) [1, 0] (fun _ => none)
      (fun _ => 0) (fun _ => 0) (by decide)⟩

lemma run_username_fields (v : String) (invoke : Nat → Outcome)
    (cfg : Config) (t d : Nat) :
    ((run_username v invoke cfg t d).status = .completed ∨
      (run_username v invoke cfg t d).status = .failed) ∧
    (run_username v invoke cfg t d).start_time = some t ∧
    (run_username v invoke cfg t d).end_time = some (t + d) := by
  rcases hres : (execute_agent invoke cfg.max_retries).result with e | cp
  · simp [run_username, hres]
  · by_cases hc : cp.returncode = 0 <;> simp [run_username, hres, hc]

lemma run_spiderfoot_fields (k v : String) (invoke : Nat → Outcome)
    (cfg : Config) (t d : Nat) :
    ((run_spiderfoot k v invoke cfg t d).status = .completed ∨
      (run_spiderfoot k v invoke cfg t d).status = .failed) ∧
    (run_spiderfoot k v invoke cfg t d).start_time = some t ∧
    (run_spiderfoot k v invoke cfg t d).end_time = some (t + d) := by
  rcases hres : (execute_agent invoke cfg.max_retries).result with e | cp
  · simp [run_spiderfoot, hres]
  · by_cases hc : cp.returncode = 0 <;> simp [run_spiderfoot, hres, hc]

lemma dispatch_task_fields (k v : String) (invoke : Nat → Outcome)
    (cfg : Config) (t d : Nat) :
    ((dispatch_task k v invoke cfg t d).status = .completed ∨
      (dispatch_task k v invoke cfg t d).status = .failed) ∧
    (dispatch_task k v invoke cfg t d).start_time = some t ∧
    (dispatch_task k v invoke cfg t d).end_time = some (t + d) := by
  unfold dispatch_task
  split
  · exact run_username_fields v invoke cfg t d
  · split
    · exact run_spiderfoot_fields k v invoke cfg t d
    · simp

/-- C7: every `TaskResult` returned by the dispatcher — in either mode — has
a terminal status (`completed` or `failed`; never `pending` or `running`)
and timestamps with `end_time ≥ start_time`. -/
theorem results_terminal (cfg : Config) (tasks : List (String × String))
    (envOf : Nat → TaskEnv) (order : List Nat) (wf : Nat → Option String)
    (ft fd : Nat → Nat) (r : TaskResult)
    (hr : r ∈ run_tasks cfg tasks envOf order wf ft fd) :
    (r.status = .completed ∨ r.status = .failed) ∧
    ∃ s e, r.start_time = some s ∧ r.end_time = some e ∧ s ≤ e := by
  unfold run_tasks at hr
  split at hr
  · rcases List.mem_map.mp hr with ⟨i, _, hmap⟩
    rcases hwf : wf i with _ | e2 <;> rw [hwf] at hmap
    · rw [← hmap]
      obtain ⟨hst, h1, h2⟩ := dispatch_task_fields (tasks.getD i ("", "")).1
        (tasks.getD i ("", "")).2 (envOf i).invoke cfg (envOf i).t0
        (envOf i).dur
      exact ⟨hst, (envOf i).t0, (envOf i).t0 + (envOf i).dur, h1, h2,
        Nat.le_add_right _ _⟩
    · rw [← hmap]
      exact ⟨Or.inr rfl, ft i, ft i + fd i, rfl, rfl, Nat.le_add_right _ _⟩
  · rcases List.mem_map.mp hr with ⟨i, _, hmap⟩
    rw [← hmap]
    obtain ⟨hst, h1, h2⟩ := dispatch_task_fields (tasks.getD i ("", "")).1
      (tasks.getD i ("", "")).2 (envOf i).invoke cfg (envOf i).t0
      (envOf i).dur
    exact ⟨hst, (envOf i).t0, (envOf i).t0 + (envOf i).dur, h1, h2,
      Nat.le_add_right _ _⟩

/-- Witness for C7 on a concrete sequential run of one username task. -/
theorem results_terminal_witness :
    ((⟨"a", "username", .completed, some 0, some 1, some 0, none⟩
        : TaskResult).status = .completed ∨
     (⟨"a", "username", .completed, some 0, some 1, some 0, none⟩
        : TaskResult).status = .failed) ∧
    ∃ s e,
      (⟨"a", "username", .completed, some 0, some 1, some 0, none⟩
        : TaskResult).start_time = some s ∧
      (⟨"a", "username", .completed, some 0, some 1, some 0, none⟩
        : TaskResult).end_time = some e ∧ s ≤ e :=
  results_terminal ⟨3, false, 4⟩ [("username", "a")]
    (fun _ => ⟨fun _ => .ret ⟨0, "", ""⟩, 0, 1⟩) [0] (fun _ => none)
    (fun _ => 0) (fun _ => 0)
    ⟨"a", "username", .completed, some 0, some 1, some 0, none⟩ (by decide)

/-- C8: in concurrent dispatch, a fault raised while executing one task is
converted into a failed `TaskResult` carrying the fault's message, and every
other task still contributes its own independently computed result — the
pool is never aborted (the result list still has one entry per task). -/
theorem parallel_fault_isolation (cfg : Config)
    (tasks : List (String × String)) (envOf : Nat → TaskEnv)
    (order : List Nat) (wf : Nat → Option String) (ft fd : Nat → Nat)
    (hp : cfg.parallel = true)
    (hord : order.Perm (List.range tasks.length))
    (i : Nat) (hi : i < tasks.length) (e : String) (he : wf i = some e) :
    (run_tasks cfg tasks envOf order wf ft fd).length = tasks.length ∧
    convFailed tasks i e (ft i) (fd i)
      ∈ run_tasks cfg tasks envOf order wf ft fd ∧
    (convFailed tasks i e (ft i) (fd i)).status = .failed ∧
    (convFailed tasks i e (ft i) (fd i)).error = some e ∧
    (∀ j, j < tasks.length → wf j = none →
      dispatch_taskAt cfg tasks envOf j
        ∈ run_tasks cfg tasks envOf order wf ft fd) := by
  have hmem : ∀ j, j < tasks.length → j ∈ order := fun j hj =>
    (hord.mem_iff).mpr (List.mem_range.mpr hj)
  refine ⟨dispatch_length cfg tasks envOf order wf ft fd hord, ?_, rfl, rfl,
    ?_⟩
  · unfold run_tasks
    rw [if_pos hp]
    refine List.mem_map.mpr ⟨i, hmem i hi, ?_⟩
    simp only [he]
  · intro j hj hwj
    unfold run_tasks
    rw [if_pos hp]
    refine List.mem_map.mpr ⟨j, hmem j hj, ?_⟩
    simp only [hwj]

/-- Witness for C8: three tasks, worker 1 raises `"boom"`, completion order
`[2, 0, 1]` — the failed conversion is present and both healthy tasks keep
their own results. -/
theorem parallel_fault_isolation_witness :
    ((⟨3, true, 4⟩ : Config).parallel = true) ∧
    ([2, 0, 1].Perm (List.range
      ([("username", "a"), ("bogus", "b"), ("domain", "c")]
        : List (String × String)).length)) ∧
    (1 < ([("username", "a"), ("bogus", "b"), ("domain", "c")]
        : List (String × String)).length) ∧
    ((fun n => if n = 1 then some "boom" else none) 1 = some "boom") ∧
    ((run_tasks ⟨3, true, 4⟩
        [("username", "a"), ("bogus", "b"), ("domain", "c")]
        (fun _ => ⟨fun _ => .ret ⟨0, "", ""⟩, 0, 1⟩) [2, 0, 1]
        (fun n => if n = 1 then some "boom" else none)
        (fun _ => 7) (fun _ => 1)).length
      = ([("username", "a"), ("bogus", "b"), ("domain", "c")]
          : List (String × String)).length ∧
     convFailed [("username", "a"), ("bogus", "b"), ("domain", "c")] 1 "boom"
        ((fun _ => (7 : Nat)) 1) ((fun _ => (1 : Nat)) 1)
        ∈ run_tasks ⟨3, true, 4⟩
            [("username", "a"), ("bogus", "b"), ("domain", "c")]
            (fun _ => ⟨fun _ => .ret ⟨0, "", ""⟩, 0, 1⟩) [2, 0, 1]
            (fun n => if n = 1 then some "boom" else none)
            (fun _ => 7) (fun _ => 1) ∧
     (convFailed [("username", "a"), ("bogus", "b"), ("domain", "c")] 1
        "boom" ((fun _ => (7 : Nat)) 1) ((fun _ => (1 : Nat)) 1)).status
        = .failed ∧
     (convFailed [("username", "a"), ("bogus", "b"), ("domain", "c")] 1
        "boom" ((fun _ => (7 : Nat)) 1) ((fun _ => (1 : Nat)) 1)).error
        = some "boom" ∧
     (∀ j, j < ([("username", "a"), ("bogus", "b"), ("domain", "c")]
          : List (String × String)).length →
        (fun n => if n = 1 then some "boom" else none) j = none →
        dispatch_taskAt ⟨3, true, 4⟩
            [("username", "a"), ("bogus", "b"), ("domain", "c")]
            (fun _ => ⟨fun _ => .ret ⟨0, "", ""⟩, 0, 1⟩) j
          ∈ run_tasks ⟨3, true, 4⟩
              [("username", "a"), ("bogus", "b"), ("domain", "c")]
              (fun _ => ⟨fun _ => .ret ⟨0, "", ""⟩, 0, 1⟩) [2, 0, 1]
              (fun n => if n = 1 then some "boom" else none)
              (fun _ => 7) (fun _ => 1))) :=
  ⟨rfl, by decide, by decide, rfl,
    parallel_fault_isolation ⟨3, true, 4⟩
      [("username", "a"), ("bogus", "b"), ("domain", "c")]
      (fun _ => ⟨fun _ => .ret ⟨0, "", ""⟩, 0, 1⟩) [2, 0, 1]
      (fun n => if n = 1 then some "boom" else none) (fun _ => 7)
      (fun _ => 1) rfl (by decide) 1 (by decide) "boom" rfl⟩

/-! ### Characterization of the classifier regexes -/

lemma emailMatch_iff (l : List Char) : emailMatch l = true ↔ EmailShape l := by
  constructor
  · intro h
    simp only [emailMatch, Bool.and_eq_true, List.all_eq_true,
      List.any_eq_true, List.mem_range, decide_eq_true_eq, beq_iff_eq,
      bne_iff_ne, ne_eq] at h
    obtain ⟨hnl, j, hj, i, hij, ⟨⟨⟨h1i, h2⟩, h3⟩, h4⟩, h5⟩ := h
    have hilt : i < l.length := by omega
    have e2 : l.drop i = '@' :: l.drop (i + 1) := by
      rw [List.drop_eq_getElem_cons hilt]
      congr 1
      have h4b := h4
      rw [List.get?_eq_getElem?, List.getElem?_eq_getElem hilt] at h4b
      exact Option.some.inj h4b
    have h5b : (l.drop (i + 1)).get? (j - i - 1) = some '.' := by
      rw [List.get?_drop, show i + 1 + (j - i - 1) = j by omega]
      exact h5
    have hjlt : j - i - 1 < (l.drop (i + 1)).length := by
      rw [List.length_drop]; omega
    have e4 : (l.drop (i + 1)).drop (j - i - 1)
        = '.' :: (l.drop (i + 1)).drop (j - i) := by
      rw [List.drop_eq_getElem_cons hjlt,
        show j - i - 1 + 1 = j - i by omega]
      congr 1
      have h5c := h5b
      rw [List.get?_eq_getElem?, List.getElem?_eq_getElem hjlt] at h5c
      exact Option.some.inj h5c
    have hdecomp : l = l.take i ++ '@' ::
        ((l.drop (i + 1)).take (j - i - 1) ++ '.' ::
          (l.drop (i + 1)).drop (j - i)) := by
      conv_lhs => rw [← List.take_append_drop i l]
      rw [e2]
      congr 1
      rw [← e4, List.take_append_drop]
    refine ⟨l.take i, (l.drop (i + 1)).take (j - i - 1),
      (l.drop (i + 1)).drop (j - i), hdecomp, ?_, ?_, ?_, hnl⟩
    · apply List.length_pos.mp
      rw [List.length_take]
      omega
    · apply List.length_pos.mp
      rw [List.length_take, List.length_drop]
      omega
    · apply List.length_pos.mp
      rw [List.length_drop, List.length_drop]
      omega
  · rintro ⟨a, b, c, hl, ha, hb, hc, hnl⟩
    have ha1 : 0 < a.length := List.length_pos.mpr ha
    have hb1 : 0 < b.length := List.length_pos.mpr hb
    have hc1 : 0 < c.length := List.length_pos.mpr hc
    have hlen : l.length = a.length + 1 + b.length + 1 + c.length := by
      rw [hl]; simp [List.length_append]; omega
    have hassoc : l = (a ++ '@' :: b) ++ '.' :: c := by
      rw [hl]; simp
    have hlen2 : (a ++ '@' :: b).length = a.length + 1 + b.length := by
      simp [List.length_append]; omega
    simp only [emailMatch, Bool.and_eq_true, List.all_eq_true,
      List.any_eq_true, List.mem_range, decide_eq_true_eq, beq_iff_eq,
      bne_iff_ne, ne_eq]
    refine ⟨hnl, a.length + 1 + b.length, by omega, a.length, by omega,
      ⟨⟨⟨by omega, by omega⟩, by omega⟩, ?_⟩, ?_⟩
    · rw [hl, List.get?_append_right (le_refl a.length), Nat.sub_self]
      rfl
    · rw [hassoc, List.get?_append_right (by rw [hlen2]),
        show a.length + 1 + b.length - (a ++ '@' :: b).length = 0 by
          rw [hlen2]; omega]
      rfl

lemma phoneCore_iff (t : List Char) :
    phoneCore t = true ↔ ∃ d rest, t = d :: rest ∧ d.isDigit = true ∧
      6 ≤ rest.length ∧ ∀ c ∈ rest, phoneClass c = true := by
  cases t with
  | nil => simp [phoneCore]
  | cons d rest =>
    simp only [phoneCore, Bool.and_eq_true, decide_eq_true_eq,
      List.all_eq_true, List.cons.injEq]
    constructor
    · rintro ⟨⟨hd, hlen⟩, hall⟩
      exact ⟨d, rest, ⟨rfl, rfl⟩, hd, hlen, hall⟩
    · rintro ⟨d2, rest2, ⟨hd2, hrest2⟩, hdig, hlen, hall⟩
      subst hd2; subst hrest2
      exact ⟨⟨hdig, hlen⟩, hall⟩

lemma phoneMatch_iff (l : List Char) : phoneMatch l = true ↔ PhoneShape l := by
  unfold PhoneShape
  cases l with
  | nil =>
    constructor
    · intro h; cases h
    · rintro ⟨d, rest, hl | hl, _⟩ <;> cases hl
  | cons x t =>
    rcases eq_or_ne x '+' with hx | hx
    · subst hx
      have hm : phoneMatch ('+' :: t) = phoneCore t := rfl
      rw [hm, phoneCore_iff]
      constructor
      · rintro ⟨d, rest, hrfl, hdig, hlen, hall⟩
        exact ⟨d, rest, Or.inr (by rw [hrfl]), hdig, hlen, hall⟩
      · rintro ⟨d, rest, hl | hl, hdig, hlen, hall⟩
        · rw [List.cons.injEq] at hl
          rw [← hl.1] at hdig
          cases hdig
        · rw [List.cons.injEq] at hl
          exact ⟨d, rest, hl.2, hdig, hlen, hall⟩
    · have hm : phoneMatch (x :: t) = phoneCore (x :: t) := by
        unfold phoneMatch
        split
        · next heq => rw [List.cons.injEq] at heq; exact absurd heq.1 hx
        · rfl
      rw [hm, phoneCore_iff]
      constructor
      · rintro ⟨d, rest, hrfl, hdig, hlen, hall⟩
        exact ⟨d, rest, Or.inl hrfl, hdig, hlen, hall⟩
      · rintro ⟨d, rest, hl | hl, hdig, hlen, hall⟩
        · exact ⟨d, rest, hl, hdig, hlen, hall⟩
        · rw [List.cons.injEq] at hl
          exact absurd hl.1 hx

lemma guess_kind_eq (s : String) :
    guess_kind s =
      (if emailMatch (pyStrip s.data) then "email"
       else if phoneMatch (pyStrip s.data) then "phone"
       else if (pyStrip s.data).contains '.' &&
              !((pyStrip s.data).contains ' ') then "domain"
       else "username") := rfl

/-- C6 counterexample: on `"a @b.c"` the claim's rules (email only for a
non-space pattern, domain only without whitespace, otherwise username)
give `"username"`, but the code returns `"email"` — the code's regex `.`
also matches spaces. -/
theorem classify_claim_counterexample :
    guess_kind "a @b.c" = "email" ∧ classifySpecC6 "a @b.c" = "username" ∧
    guess_kind "a @b.c" ≠ classifySpecC6 "a @b.c" := by decide

/-- C6 amended: `guess_kind` strips its input and then applies its rules in
order with first match winning — email when the stripped input splits as
`any+ "@" any+ "." any+` over newline-free characters, otherwise phone for
an optional `'+'`, a digit, and at least six digit/whitespace/`().-`
characters, otherwise domain when it contains a dot and no space character,
otherwise username; the result always lies in the fixed kind set. -/
theorem classify_characterization (s : String) :
    classifyRules (pyStrip s.data) (guess_kind s) ∧
    guess_kind s ∈ (["email", "phone", "domain", "username"] : List String)
    := by
  have hiffE := emailMatch_iff (pyStrip s.data)
  have hiffP := phoneMatch_iff (pyStrip s.data)
  unfold classifyRules
  cases hE : emailMatch (pyStrip s.data) with
  | true =>
    have hgg : guess_kind s = "email" := by rw [guess_kind_eq, if_pos hE]
    exact ⟨Or.inl ⟨hiffE.mp hE, hgg⟩, by rw [hgg]; decide⟩
  | false =>
    have hnE : ¬EmailShape (pyStrip s.data) := fun hsh => by
      have := hiffE.mpr hsh
      rw [this] at hE
      cases hE
    cases hP : phoneMatch (pyStrip s.data) with
    | true =>
      have hgg : guess_kind s = "phone" := by
        rw [guess_kind_eq, if_neg (by rw [hE]; exact Bool.false_ne_true),
          if_pos hP]
      exact ⟨Or.inr (Or.inl ⟨hnE, hiffP.mp hP, hgg⟩), by rw [hgg]; decide⟩
    | false =>
      have hnP : ¬PhoneShape (pyStrip s.data) := fun hsh => by
        have := hiffP.mpr hsh
        rw [this] at hP
        cases hP
      cases hD : ((pyStrip s.data).contains '.' &&
          !((pyStrip s.data).contains ' ')) with
      | true =>
        have hD2 := hD
        rw [Bool.and_eq_true, Bool.not_eq_true'] at hD2
        have hdot : '.' ∈ pyStrip s.data := List.elem_iff.mp hD2.1
        have hsp : ' ' ∉ pyStrip s.data := fun hmem => by
          have h3 : (pyStrip s.data).contains ' ' = true :=
            List.elem_iff.mpr hmem
          have h4 := hD2.2
          rw [h3] at h4
          exact absurd h4 (by decide)
        have hgg : guess_kind s = "domain" := by
          rw [guess_kind_eq, if_neg (by rw [hE]; exact Bool.false_ne_true),
            if_neg (by rw [hP]; exact Bool.false_ne_true), if_pos hD]
        exact ⟨Or.inr (Or.inr (Or.inl ⟨hnE, hnP, hdot, hsp, hgg⟩)),
          by rw [hgg]; decide⟩
      | false =>
        have hnd : ¬('.' ∈ pyStrip s.data ∧ ' ' ∉ pyStrip s.data) := by
          rintro ⟨hdot, hsp⟩
          have h1 : (pyStrip s.data).contains '.' = true :=
            List.elem_iff.mpr hdot
          have h2 : (pyStrip s.data).contains ' ' = false := by
            cases hsp2 : (pyStrip s.data).contains ' ' with
            | false => rfl
            | true => exact absurd (List.elem_iff.mp hsp2) hsp
          rw [h1, h2] at hD
          simp at hD
        have hgg : guess_kind s = "username" := by
          rw [guess_kind_eq, if_neg (by rw [hE]; exact Bool.false_ne_true),
            if_neg (by rw [hP]; exact Bool.false_ne_true),
            if_neg (by rw [hD]; exact Bool.false_ne_true)]
        exact ⟨Or.inr (Or.inr (Or.inr ⟨hnE, hnP, hnd, hgg⟩)),
          by rw [hgg]; decide⟩

end OsintAgents
